import Mathlib

/-!
Shallow embedding of the pdgworkflow raster pipeline (RasterTiler.py and the
value-range portion of ConfigManager.py), together with theorems that settle
the specification claims about it.

External collaborators (path resolver, vector decoder, rasterizer, compositor,
image encoder) are abstracted into an environment record that fixes, for the
whole run, which operations succeed and which fail, and how tile coordinates
relate to file paths.  The file system and the append-only ledgers are modelled
as explicit state threaded through the functions.  Python exceptions are
modelled with Except; an exception caught by a handler inside a function does
not appear in its result type, while an exception that escapes does.
-/

/-- File paths are strings, as in the Python code. -/
abbrev FilePath2 := String

/-- Tile coordinate: column, row, zoom and tiling-scheme id (morecantile.Tile
plus the tms, as produced by the external TilePathManager). -/
structure Tile where
  x : Int
  y : Int
  z : Int
  tms : String
deriving DecidableEq

/-- Models the external TilePathManager.get_parent_tile: the unique parent of a
tile sits one zoom level below it, via the deterministic quadrant function. -/
def parentTile (t : Tile) : Tile :=
  { x := t.x / 2, y := t.y / 2, z := t.z - 1, tms := t.tms }

/-- One row appended to the rasterization-events ledger by end-tracking,
abstracted to the fields the claims need: which tile it concerns and whether it
records an error.  The full column schema of a row is modelled separately by
end-tracking-event below. -/
structure EventRec where
  tile : Option Tile
  isError : Bool
deriving DecidableEq

/-- The observable state: geotiff files and web-tile files on disk, the number
of rows in the rasters-summary ledger and the rows of the events ledger. -/
structure FS where
  geotiffs : List FilePath2
  webtiles : List FilePath2
  summaryCount : Nat
  events : List EventRec
deriving DecidableEq

/-- Python exceptions that can escape the modelled functions. -/
inductive Err where
  | noVectorFiles
  | refDecode
  | zMismatch
  | tmsMismatch
  | unboundLocalTile
  | statNotFound
  | attrNone
  | typeErrorNoneIndex
deriving DecidableEq

/-- Result of one parent-geotiff build: the skip branch (output exists and
overwrite is off), a successful build, or a caught failure. -/
inductive POutcome where
  | skip
  | built
  | failed
deriving DecidableEq

/-- The environment: decisions of all external collaborators, fixed for a run.
A Bool-valued field set to true at some input means the corresponding external
call raises an exception there. -/
structure Env where
  tileOfPath : FilePath2 → Option Tile
  geoPathOf : Tile → FilePath2
  webPathOf : Tile → String → FilePath2
  vectorFiles : List FilePath2
  boundsFail : FilePath2 → Bool
  readFail : FilePath2 → Bool
  dedupFail : FilePath2 → Bool
  rasterFail : FilePath2 → Bool
  bands : FilePath2 → Nat
  parentFail : Tile → Bool
  parentBands : Tile → Nat
  rasterReadFail : FilePath2 → Bool
  encodeFail : FilePath2 → Nat → Bool
  webBands : FilePath2 → Nat

/-- Relevant fields of the workflow configuration. -/
structure WorkflowConfig where
  maxZ : Int
  minZ : Int
  tmsId : String
  statNames : List String

/-- Writing a file: the path is added to the listing if not already present. -/
def addFile (l : List FilePath2) (p : FilePath2) : List FilePath2 :=
  if l.contains p then l else l ++ [p]

/-- Adding a tile to a Python set, modelled as order-preserving duplicate-free
insertion into a list. -/
def dedupInsert (l : List Tile) (t : Tile) : List Tile :=
  if l.contains t then l else l ++ [t]

/-- RasterTiler.rasterize_vector.  Decodes the tile from the path, skips when
the output exists and overwrite is off, otherwise reads, filters, rasterizes
and writes, tracking one event row (plus one summary row per band on success).
All failures inside the try block are caught and yield None, except a failure
of tile_from_path itself: there the except block evaluates the unbound local
variable tile, so an UnboundLocalError escapes the function. -/
def rasterize_vector (env : Env) (fs : FS) (path : FilePath2) (ow : Bool) :
    FS × Except Err (Option Tile) :=
  match env.tileOfPath path with
  | none => (fs, Except.error Err.unboundLocalTile)
  | some tile =>
    let out := env.geoPathOf tile
    if fs.geotiffs.contains out ∧ ¬ ow then
      (fs, Except.ok none)
    else if env.boundsFail path ∨ env.readFail path ∨ env.dedupFail path ∨
        env.rasterFail path then
      ({ fs with events := fs.events ++ [⟨some tile, true⟩] }, Except.ok none)
    else
      ({ fs with
          geotiffs := addFile fs.geotiffs out,
          summaryCount := fs.summaryCount + env.bands path,
          events := fs.events ++ [⟨some tile, false⟩] }, Except.ok (some tile))

/-- The per-path loop of RasterTiler.rasterize_vectors: rasterize each path,
adding the parent of each successfully rasterized tile to the parent set, and
recording a trace of per-path results.  An escaping exception aborts the loop
with the remaining paths unprocessed. -/
def rasterize_loop (env : Env) (ow : Bool) (fs : FS) (acc : List Tile)
    (tr : List (FilePath2 × Option Tile)) :
    List FilePath2 → FS × Except Err (List Tile × List (FilePath2 × Option Tile))
  | [] => (fs, Except.ok (acc, tr))
  | p :: ps =>
    match rasterize_vector env fs p ow with
    | (fs1, Except.error e) => (fs1, Except.error e)
    | (fs1, Except.ok none) => rasterize_loop env ow fs1 acc (tr ++ [(p, none)]) ps
    | (fs1, Except.ok (some t)) =>
        rasterize_loop env ow fs1 (dedupInsert acc (parentTile t)) (tr ++ [(p, some t)]) ps

/-- RasterTiler.parent_geotiff_from_children for one tile: skip when the output
exists and overwrite is off; otherwise composite the existing children and
write, logging one event row and one summary row per band; failures are caught
and logged as an error event. -/
def parent_geotiff_from_children (env : Env) (fs : FS) (t : Tile) (ow : Bool) :
    FS × POutcome :=
  let out := env.geoPathOf t
  if fs.geotiffs.contains out ∧ ¬ ow then
    (fs, POutcome.skip)
  else if env.parentFail t then
    ({ fs with events := fs.events ++ [⟨some t, true⟩] }, POutcome.failed)
  else
    ({ fs with
        geotiffs := addFile fs.geotiffs out,
        summaryCount := fs.summaryCount + env.parentBands t,
        events := fs.events ++ [⟨some t, false⟩] }, POutcome.built)

/-- The for loop inside RasterTiler.parent_geotiffs_from_children: build every
tile of the current level, collecting the per-tile outcome. -/
def processRound (env : Env) (ow : Bool) : FS → List Tile → FS × List (Tile × POutcome)
  | fs, [] => (fs, [])
  | fs, t :: ts =>
    let r := parent_geotiff_from_children env fs t ow
    let rest := processRound env ow r.1 ts
    (rest.1, (t, r.2) :: rest.2)

/-- The parent set built by one round: the parent of every successfully built
tile, deduplicated. -/
def collectParents (outs : List (Tile × POutcome)) : List Tile :=
  outs.foldl
    (fun acc o => if o.2 = POutcome.built then dedupInsert acc (parentTile o.1) else acc)
    []

/-- Largest zoom among a nonempty collection of tiles, used only as the
termination measure of the pyramid recursion. -/
def listMaxZ (t : Tile) (ts : List Tile) : Int :=
  ts.foldl (fun a u => max a u.z) t.z

/-- Termination measure for the pyramid recursion: distance from the largest
zoom of the current level to the floor. -/
def pgfcMeasure (m : Int) : List Tile → Nat
  | [] => 0
  | t :: ts => (listMaxZ t ts - max 0 m + 1).toNat

/-- RasterTiler.parent_geotiffs_from_children: reads the current zoom from the
first tile, stops when it is below zero or below the configured minimum zoom,
otherwise builds every tile of the level and recurses on the deduplicated set
of their parents.  The trace pairs each visited zoom with the per-tile
outcomes of that round.  The code always recurses (the recursive flag defaults
to True in every call) and propagates overwrite within the recursion. -/
def parent_geotiffs_from_children (env : Env) (m : Int) (fs : FS)
    (tiles : List Tile) (ow : Bool) : FS × List (Int × List (Tile × POutcome)) :=
  match tiles with
  | [] => (fs, [])
  | t :: ts =>
    if h : t.z < 0 ∨ t.z < m then (fs, [])
    else
      match hr : processRound env ow fs (t :: ts) with
      | (fs1, outs) =>
        match parent_geotiffs_from_children env m fs1 (collectParents outs) ow with
        | (fs2, rest) => (fs2, (t.z, outs) :: rest)
termination_by pgfcMeasure m tiles
decreasing_by
  push_neg at h
  obtain ⟨h1, h2⟩ := h
  have hfold : ∀ (l : List Tile) (a b : Int), a ≤ b →
      a ≤ l.foldl (fun x u => max x u.z) b := by
    intro l
    induction l with
    | nil => intro a b hab; simpa using hab
    | cons u l ih =>
        intro a b hab
        exact ih a (max b u.z) (le_trans hab (le_max_left _ _))
  have hmz : ∀ (l : List Tile) (a : Int) (u : Tile), u ∈ l →
      u.z ≤ l.foldl (fun x w => max x w.z) a := by
    intro l
    induction l with
    | nil => intro a u hu; cases hu
    | cons v l ih =>
        intro a u hu
        cases hu with
        | head => exact hfold l _ _ (le_max_right _ _)
        | tail _ hu => exact ih (max a v.z) u hu
  have hfle : ∀ (l : List Tile) (a B : Int), a ≤ B → (∀ u ∈ l, u.z ≤ B) →
      l.foldl (fun x w => max x w.z) a ≤ B := by
    intro l
    induction l with
    | nil => intro a B hab _; simpa using hab
    | cons v l ih =>
        intro a B hab hB
        exact ih (max a v.z) B (max_le hab (hB v (List.mem_cons_self _ _)))
          (fun u hu => hB u (List.mem_cons_of_mem _ hu))
  have hins : ∀ (l : List Tile) (w x : Tile), x ∈ dedupInsert l w → x ∈ l ∨ x = w := by
    intro l w x hx
    unfold dedupInsert at hx
    by_cases hc : l.contains w
    · simp only [hc, if_pos] at hx; exact Or.inl hx
    · simp only [hc, if_neg] at hx
      rcases List.mem_append.mp hx with hx | hx
      · exact Or.inl hx
      · exact Or.inr (List.mem_singleton.mp hx)
  have hcp : ∀ (os : List (Tile × POutcome)) (acc : List Tile) (p : Tile),
      p ∈ os.foldl
        (fun acc o => if o.2 = POutcome.built then dedupInsert acc (parentTile o.1) else acc)
        acc →
      p ∈ acc ∨ ∃ o, o ∈ os ∧ p = parentTile o.1 := by
    intro os
    induction os with
    | nil => intro acc p hp; exact Or.inl hp
    | cons o os ih =>
        intro acc p hp
        simp only [List.foldl_cons] at hp
        rcases ih _ p hp with hp2 | ⟨o2, ho2, hpe⟩
        · by_cases hb : o.2 = POutcome.built
          · simp only [hb, if_pos] at hp2
            rcases hins _ _ _ hp2 with hp3 | hp3
            · exact Or.inl hp3
            · exact Or.inr ⟨o, List.mem_cons_self _ _, hp3⟩
          · simp only [hb, if_neg, not_false_iff] at hp2
            exact Or.inl hp2
        · exact Or.inr ⟨o2, List.mem_cons_of_mem _ ho2, hpe⟩
  have hpr : ∀ (l : List Tile) (fs0 : FS) (o : Tile × POutcome),
      o ∈ (processRound env ow fs0 l).2 → o.1 ∈ l := by
    intro l
    induction l with
    | nil => intro fs0 o ho; simp [processRound] at ho
    | cons v l ih =>
        intro fs0 o ho
        simp only [processRound] at ho
        rcases List.mem_cons.mp ho with ho | ho
        · subst ho; exact List.mem_cons_self _ _
        · exact List.mem_cons_of_mem _ (ih _ o ho)
  have hout : ∀ o ∈ outs, o.1 ∈ t :: ts := by
    intro o ho
    have ho2 : o ∈ (processRound env ow fs (t :: ts)).2 := by rw [hr]; exact ho
    exact hpr (t :: ts) fs o ho2
  have hM : max 0 m ≤ t.z := max_le h1 h2
  have hB : t.z ≤ listMaxZ t ts := hfold ts t.z t.z le_rfl
  have hpz : ∀ p ∈ collectParents outs, p.z ≤ listMaxZ t ts - 1 := by
    intro p hp
    rcases hcp outs [] p hp with hp2 | ⟨o, ho, hpe⟩
    · cases hp2
    · have hoz : o.1.z ≤ listMaxZ t ts := by
        rcases List.mem_cons.mp (hout o ho) with hh | hh
        · rw [hh]; exact hB
        · exact hmz ts t.z o.1 hh
      rw [hpe]
      simp only [parentTile]
      omega
  rcases hP : collectParents outs with _ | ⟨p, ps⟩
  · simp only [pgfcMeasure]
    omega
  · simp only [pgfcMeasure]
    have hp1 : p.z ≤ listMaxZ t ts - 1 := by
      apply hpz; rw [hP]; exact List.mem_cons_self _ _
    have hp2 : ∀ u ∈ ps, u.z ≤ listMaxZ t ts - 1 := by
      intro u hu
      apply hpz; rw [hP]; exact List.mem_cons_of_mem _ hu
    have hPle : listMaxZ p ps ≤ listMaxZ t ts - 1 := hfle ps p.z _ hp1 hp2
    omega

/-- The observable results of one rasterize_vectors call: the deduplicated
parent set it builds, the per-path trace of the leaf loop, the rounds of the
parent-building recursion it triggers, and the value the Python function
returns to its caller (the function body has no return statement, so the
caller always receives None). -/
structure RVOut where
  parents : List Tile
  trace : List (FilePath2 × Option Tile)
  rounds : List (Int × List (Tile × POutcome))
  pyReturn : Option (List Tile)
deriving DecidableEq

/-- RasterTiler.rasterize_vectors: filter out nonexistent paths, raise when
none remain, check the zoom and tiling scheme decoded from the first path
against the configuration, run the leaf loop, and, when makeParents is set,
invoke parent_geotiffs_from_children on the parent set.  That call passes no
overwrite argument, so the parent build always runs with overwrite true
regardless of the overwrite given to rasterize_vectors. -/
def rasterize_vectors (env : Env) (cfg : WorkflowConfig) (fs : FS)
    (paths : List FilePath2) (makeParents ow : Bool) : FS × Except Err RVOut :=
  match paths.filter (fun p => env.vectorFiles.contains p) with
  | [] => (fs, Except.error Err.noVectorFiles)
  | p0 :: rest =>
    match env.tileOfPath p0 with
    | none => (fs, Except.error Err.refDecode)
    | some rt =>
      if rt.z ≠ cfg.maxZ then (fs, Except.error Err.zMismatch)
      else if rt.tms ≠ cfg.tmsId then (fs, Except.error Err.tmsMismatch)
      else
        match rasterize_loop env ow fs [] [] (p0 :: rest) with
        | (fs1, Except.error e) => (fs1, Except.error e)
        | (fs1, Except.ok (parents, tr)) =>
          if makeParents then
            match parent_geotiffs_from_children env cfg.minZ fs1 parents true with
            | (fs2, rounds) => (fs2, Except.ok ⟨parents, tr, rounds, none⟩)
          else (fs1, Except.ok ⟨parents, tr, [], none⟩)

/-- The per-band for loop of RasterTiler.webtile_from_geotiff, indexed by the
band number.  A band whose output exists is skipped when overwrite is off;
otherwise the band is encoded and saved unless the encoder raises, in which
case the exception leaves the loop at once (true in the second component) and
the remaining bands are never reached. -/
def webtile_loop (env : Env) (gpath : FilePath2) (tile : Tile) (ow : Bool) :
    FS → Nat → List String → FS × Bool
  | fs, _, [] => (fs, false)
  | fs, i, s :: rest =>
    let out := env.webPathOf tile s
    if fs.webtiles.contains out ∧ ¬ ow then
      webtile_loop env gpath tile ow fs (i + 1) rest
    else if env.encodeFail gpath i then
      (fs, true)
    else
      webtile_loop env gpath tile ow { fs with webtiles := addFile fs.webtiles out }
        (i + 1) rest

/-- RasterTiler.webtile_from_geotiff: read the raster and decode the tile (a
failure there escapes as an UnboundLocalError, because the except block
evaluates the unbound local variable tile), then encode one web tile per
statistic band.  An exception inside the band loop is caught at the level of
the whole geotiff: one error event row is appended and None is returned.  On
success one event row is appended, along with the summary rows end-tracking
derives from the raster that was read. -/
def webtile_from_geotiff (env : Env) (cfg : WorkflowConfig) (fs : FS)
    (gpath : FilePath2) (ow : Bool) : FS × Except Err (Option Tile) :=
  if env.rasterReadFail gpath then (fs, Except.error Err.unboundLocalTile)
  else
    match env.tileOfPath gpath with
    | none => (fs, Except.error Err.unboundLocalTile)
    | some tile =>
      match webtile_loop env gpath tile ow fs 0 cfg.statNames with
      | (fs1, true) =>
        ({ fs1 with events := fs1.events ++ [⟨some tile, true⟩] }, Except.ok none)
      | (fs1, false) =>
        ({ fs1 with
            events := fs1.events ++ [⟨some tile, false⟩],
            summaryCount := fs1.summaryCount + env.webBands gpath },
          Except.ok (some tile))

/-- The loop of RasterTiler.webtiles_from_geotiffs over geotiff paths.  A
caught failure inside webtile_from_geotiff yields ok and the loop continues;
an escaping exception aborts the loop. -/
def webtiles_loop (env : Env) (cfg : WorkflowConfig) (ow : Bool) :
    FS → List FilePath2 → FS × Except Err Unit
  | fs, [] => (fs, Except.ok ())
  | fs, g :: gs =>
    match webtile_from_geotiff env cfg fs g ow with
    | (fs1, Except.error e) => (fs1, Except.error e)
    | (fs1, Except.ok _) => webtiles_loop env cfg ow fs1 gs

/-- Values stored in the event dict (strings, numbers or None); only the keys
matter to the schema claims. -/
inductive PyVal where
  | none
  | str (s : String)
  | num (n : Int)
deriving DecidableEq

/-- Python dict update d[k] = v on a dict modelled as an insertion-ordered
association list: an existing key keeps its position, a new key is appended. -/
def pyUpdate (d : List (String × PyVal)) (k : String) (v : PyVal) :
    List (String × PyVal) :=
  if d.any (fun kv => kv.1 == k) then
    d.map (fun kv => if kv.1 == k then (k, v) else kv)
  else d ++ [(k, v)]

/-- The event dict built by RasterTiler.__end_tracking, with the literal keys
in source order, then the conditional updates for a raster path, an image path
and a tile.  The row appended to the events ledger has exactly the keys of
this dict as its columns. -/
def end_tracking_event (idv typev startv totalv endv errv : PyVal)
    (rasterPath : Option PyVal) (imagePath : Option PyVal)
    (tileInfo : Option (PyVal × PyVal)) : List (String × PyVal) :=
  let base := [("id", idv), ("type", typev), ("start_time", startv),
    ("total_time", totalv), ("end_time", endv), ("error", errv),
    ("path", PyVal.none), ("raster_summary", PyVal.none),
    ("tile", PyVal.none), ("z", PyVal.none)]
  let d1 := match rasterPath with
    | some p => pyUpdate base "path" p
    | none => base
  let d2 := match imagePath with
    | some p => pyUpdate d1 "path" p
    | none => d1
  match tileInfo with
  | some ti => pyUpdate (pyUpdate d2 "tile" ti.1) "z" ti.2
  | none => d2

/-- Numeric range values.  The code never computes with the stored bounds in
the claims under study, so an integer domain suffices. -/
abbrev RVal := Int

/-- A val_range list of the config: the two slots of the Python list
min and max, either of which may hold None. -/
abbrev VRange := Option RVal × Option RVal

/-- A key of a z_config dict.  ConfigManager.get_value_range converts an
integer z to its decimal string before the lookup, while
ConfigManager.create_value_range uses the key exactly as given, so both kinds
of key can occur in one dict and they never compare equal. -/
inductive ZKey where
  | i (n : Int)
  | s (v : String)
deriving DecidableEq

/-- The conversion done in get_value_range: if z is not a string, replace it
with str(z). -/
def pyStr (k : ZKey) : ZKey :=
  match k with
  | ZKey.i n => ZKey.s (toString n)
  | ZKey.s v => ZKey.s v

/-- The per-statistic part of the configuration: the optional general
val_range and the optional z_config dict.  Each z_config entry is a dict whose
val_range key may itself be absent. -/
structure StatCfg where
  val_range : Option VRange
  z_config : Option (List (ZKey × Option VRange))
deriving DecidableEq

/-- The statistics list of the configuration, keyed by statistic name. -/
abbrev StatsConfig := List (String × StatCfg)

/-- ConfigManager.get_stat_config: first statistics entry with the given name,
None when there is none. -/
def lookupStat : StatsConfig → String → Option StatCfg
  | [], _ => none
  | (n, sc) :: rest, stat => if n = stat then some sc else lookupStat rest stat

/-- Replace the config of an existing statistic in place (mutation of the
dict returned by get_stat_config). -/
def updateStat : StatsConfig → String → StatCfg → StatsConfig
  | [], _, _ => []
  | (n, sc0) :: rest, stat, sc =>
    if n = stat then (n, sc) :: rest else (n, sc0) :: updateStat rest stat sc

/-- Dict lookup in a z_config. -/
def zlookup : List (ZKey × Option VRange) → ZKey → Option (Option VRange)
  | [], _ => none
  | (k0, e) :: rest, k => if k0 = k then some e else zlookup rest k

/-- Dict store in a z_config: an existing key is updated in place, a new key
is appended. -/
def zstore : List (ZKey × Option VRange) → ZKey → Option VRange →
    List (ZKey × Option VRange)
  | [], k, e => [(k, e)]
  | (k0, e0) :: rest, k, e =>
    if k0 = k then (k, e) :: rest else (k0, e0) :: zstore rest k e

/-- ConfigManager.get_value_range.  Raises ValueError when the statistic is
unknown.  With z given, converts z to a string, and when the z entry is absent
falls back to the general range only if sub_general is set; when the z entry
exists, returns its val_range (which may be None) with no fallback. -/
def get_value_range (cfg : StatsConfig) (stat : String) (z : Option ZKey)
    (sub : Bool) : Except Err (Option VRange) :=
  match lookupStat cfg stat with
  | none => Except.error Err.statNotFound
  | some sc =>
    match z with
    | none => Except.ok sc.val_range
    | some k =>
      let ks := pyStr k
      match sc.z_config with
      | none => Except.ok (if sub then sc.val_range else none)
      | some zc =>
        match zlookup zc ks with
        | none => Except.ok (if sub then sc.val_range else none)
        | some entry => Except.ok entry

/-- ConfigManager.get_min.  When the resolved range exists but its min slot is
None and sub_general is set, substitutes slot 0 of the general range; when the
general range is itself None that subscript raises a TypeError. -/
def get_min (cfg : StatsConfig) (stat : String) (z : Option ZKey) (sub : Bool) :
    Except Err (Option RVal) := do
  let vr ← get_value_range cfg stat z sub
  match vr with
  | none => Except.ok none
  | some r =>
    if r.1 = none ∧ sub then
      match (← get_value_range cfg stat none false) with
      | none => Except.error Err.typeErrorNoneIndex
      | some g => Except.ok g.1
    else Except.ok r.1

/-- ConfigManager.get_max, symmetric to get_min on slot 1. -/
def get_max (cfg : StatsConfig) (stat : String) (z : Option ZKey) (sub : Bool) :
    Except Err (Option RVal) := do
  let vr ← get_value_range cfg stat z sub
  match vr with
  | none => Except.ok none
  | some r =>
    if r.2 = none ∧ sub then
      match (← get_value_range cfg stat none false) with
      | none => Except.error Err.typeErrorNoneIndex
      | some g => Except.ok g.2
    else Except.ok r.2

/-- ConfigManager.min_missing: the range resolved under the fallback policy is
absent, or its min slot is None. -/
def min_missing (cfg : StatsConfig) (stat : String) (z : Option ZKey)
    (sub : Bool) : Except Err Bool := do
  let vr ← get_value_range cfg stat z sub
  match vr with
  | none => Except.ok true
  | some r => Except.ok r.1.isNone

/-- ConfigManager.max_missing, symmetric on slot 1. -/
def max_missing (cfg : StatsConfig) (stat : String) (z : Option ZKey)
    (sub : Bool) : Except Err Bool := do
  let vr ← get_value_range cfg stat z sub
  match vr with
  | none => Except.ok true
  | some r => Except.ok r.2.isNone

/-- ConfigManager.set_min via create_value_range with overwrite False.  Note
that the z key is used exactly as passed, with no string conversion, unlike
the getters.  The stored value is the argument itself, which may be None. -/
def set_min (cfg : StatsConfig) (v : Option RVal) (stat : String)
    (z : Option ZKey) : Except Err StatsConfig :=
  match lookupStat cfg stat with
  | none => Except.error Err.attrNone
  | some sc =>
    match z with
    | none =>
      let r := sc.val_range.getD (none, none)
      Except.ok (updateStat cfg stat { sc with val_range := some (v, r.2) })
    | some k =>
      let zc := sc.z_config.getD []
      let r := ((zlookup zc k).getD none).getD (none, none)
      Except.ok (updateStat cfg stat
        { sc with z_config := some (zstore zc k (some (v, r.2))) })

/-- ConfigManager.set_max, symmetric on slot 1. -/
def set_max (cfg : StatsConfig) (v : Option RVal) (stat : String)
    (z : Option ZKey) : Except Err StatsConfig :=
  match lookupStat cfg stat with
  | none => Except.error Err.attrNone
  | some sc =>
    match z with
    | none =>
      let r := sc.val_range.getD (none, none)
      Except.ok (updateStat cfg stat { sc with val_range := some (r.1, v) })
    | some k =>
      let zc := sc.z_config.getD []
      let r := ((zlookup zc k).getD none).getD (none, none)
      Except.ok (updateStat cfg stat
        { sc with z_config := some (zstore zc k (some (r.1, v))) })

/-- The inner loop of ConfigManager.update_ranges over the z entries of one
statistic of the observed mapping: fill the min slot when min_missing with
fallback reports it missing, then likewise for the max slot on the updated
config. -/
def update_ranges_z (cfg : StatsConfig) (stat : String) :
    List (ZKey × VRange) → Except Err StatsConfig
  | [] => Except.ok cfg
  | (k, vr) :: rest => do
    let mm ← min_missing cfg stat (some k) true
    let cfg1 ← if mm then set_min cfg vr.1 stat (some k) else pure cfg
    let xm ← max_missing cfg1 stat (some k) true
    let cfg2 ← if xm then set_max cfg1 vr.2 stat (some k) else pure cfg1
    update_ranges_z cfg2 stat rest

/-- ConfigManager.update_ranges over the whole observed mapping (the z keys of
that mapping are integers in the code, produced by get_z_ranges). -/
def update_ranges (cfg : StatsConfig) :
    List (String × List (ZKey × VRange)) → Except Err StatsConfig
  | [] => Except.ok cfg
  | (stat, zs) :: rest => do
    let cfg1 ← update_ranges_z cfg stat zs
    update_ranges cfg1 rest

/-- A concrete staged tile at the configured maximum zoom. -/
def t30 : Tile := ⟨0, 0, 3, "WGS"⟩

/-- A second staged tile at the maximum zoom with a different parent. -/
def t31 : Tile := ⟨2, 0, 3, "WGS"⟩

/-- A third staged tile, used for a path whose vector read fails. -/
def t32 : Tile := ⟨4, 0, 3, "WGS"⟩

/-- A concrete environment: staged vector paths v1, v2 and vfail decode to
tiles at zoom 3, the path bad does not decode, geotiff g1 and g2 decode to
tiles, reading the vector file vfail raises, and everything else succeeds. -/
def cEnvBase : Env where
  tileOfPath := fun p =>
    if p == "v1" then some t30
    else if p == "v2" then some t31
    else if p == "vfail" then some t32
    else if p == "g1" then some t30
    else if p == "g2" then some t31
    else none
  geoPathOf := fun t =>
    "geo-" ++ toString t.x ++ "-" ++ toString t.y ++ "-" ++ toString t.z
  webPathOf := fun t s =>
    "web-" ++ s ++ "-" ++ toString t.x ++ "-" ++ toString t.y ++ "-" ++ toString t.z
  vectorFiles := ["v1", "v2", "bad", "vfail"]
  boundsFail := fun _ => false
  readFail := fun p => p == "vfail"
  dedupFail := fun _ => false
  rasterFail := fun _ => false
  bands := fun _ => 2
  parentFail := fun _ => false
  parentBands := fun _ => 3
  rasterReadFail := fun _ => false
  encodeFail := fun _ _ => false
  webBands := fun _ => 0

/-- The concrete environment with an encoder that raises on band 0 of geotiff
g1 only. -/
def cEnvWeb : Env :=
  { cEnvBase with encodeFail := fun p i => p == "g1" && i == 0 }

/-- A concrete configuration: zooms 3 down to 2, tiling scheme WGS, two
statistics A and B. -/
def cCfg : WorkflowConfig := ⟨3, 2, "WGS", ["A", "B"]⟩

/-- The empty file system and ledgers. -/
def fs0 : FS := ⟨[], [], 0, []⟩

/-- A file system on which the parent geotiff of t30 already exists. -/
def fsP : FS := ⟨["geo-0-0-2"], [], 0, []⟩

/-- The zoom levels from z0 down to m inclusive. -/
def zoomList (z0 m : Int) : List Int :=
  (List.range (z0 - m + 1).toNat).map (fun i : Nat => z0 - (i : Int))

/-- A statistics configuration with one statistic, count, that has no general
range and no per-zoom ranges. -/
def c1cfg : StatsConfig := [("count", ⟨none, none⟩)]

/-- An observed-ranges mapping as built by get_z_ranges: integer zoom key 10,
observed min 2 and max 9 for statistic count. -/
def c1obs : List (String × List (ZKey × VRange)) := [("count", [(ZKey.i 10, (some 2, some 9))])]

/-- The configuration resulting from merging c1obs into c1cfg: the observed
bounds sit under the integer key 10, which no getter ever consults. -/
def c1after : StatsConfig :=
  [("count", ⟨none, some [(ZKey.i 10, some (some 2, some 9))]⟩)]

/-- A statistics configuration whose count statistic has a general minimum 5
and nothing else. -/
def c1cfgA : StatsConfig := [("count", ⟨some (some 5, none), none⟩)]

/-- The configuration resulting from merging c1obs into c1cfgA: the stored
minimum 5 is untouched, the observed max lands under the integer key 10. -/
def c1afterA : StatsConfig :=
  [("count", ⟨some (some 5, none), some [(ZKey.i 10, some (none, some 9))]⟩)]

/-- A statistics configuration where count has the general range (3, 8) and a
per-zoom range at string key 10 whose min slot is unset. -/
def c8cfg : StatsConfig :=
  [("count", ⟨some (some 3, some 8), some [(ZKey.s "10", some (none, some 9))]⟩)]

deriving instance DecidableEq for Except

/-- The parent tile of t30 (and first-round parent in the concrete runs). -/
def p20 : Tile := ⟨0, 0, 2, "WGS"⟩

/-- The parent tile of p20, one level below the configured minimum zoom. -/
def p10 : Tile := ⟨0, 0, 1, "WGS"⟩

/-- A file system on which the leaf geotiff of t30 already exists. -/
def fsG : FS := ⟨["geo-0-0-3"], [], 0, []⟩

/-- A configuration whose maximum zoom 4 does not match the staged tiles. -/
def cCfgZ4 : WorkflowConfig := ⟨4, 2, "WGS", ["A", "B"]⟩

/-- A configuration whose tiling scheme does not match the staged tiles. -/
def cCfgTms : WorkflowConfig := ⟨3, 2, "OTHER", ["A", "B"]⟩

/-- The state after running rasterize_vectors on v1 over fsP with parent
building on and overwrite off: the pre-existing parent geotiff is rebuilt. -/
def fsPX : FS :=
  ⟨["geo-0-0-2", "geo-0-0-3"], [], 5, [⟨some t30, false⟩, ⟨some p20, false⟩]⟩

/-- The leaf-loop state of that same run, before the parent phase. -/
def fs1P : FS := ⟨["geo-0-0-2", "geo-0-0-3"], [], 2, [⟨some t30, false⟩]⟩

/-- The result record of that same run. -/
def rPX : RVOut := ⟨[p20], [("v1", some t30)], [(2, [(p20, POutcome.built)])], none⟩

theorem mem_dedupInsert (l : List Tile) (t x : Tile) :
    x ∈ dedupInsert l t ↔ x ∈ l ∨ x = t := by
  unfold dedupInsert
  by_cases hm : t ∈ l
  · rw [if_pos (List.elem_iff.mpr hm)]
    constructor
    · exact Or.inl
    · rintro (h | h)
      · exact h
      · rw [h]; exact hm
  · rw [if_neg (fun hcc => hm (List.elem_iff.mp hcc))]
    simp [List.mem_append]

theorem nodup_dedupInsert (l : List Tile) (t : Tile) (h : l.Nodup) :
    (dedupInsert l t).Nodup := by
  unfold dedupInsert
  by_cases hm : t ∈ l
  · rw [if_pos (List.elem_iff.mpr hm)]; exact h
  · rw [if_neg (fun hcc => hm (List.elem_iff.mp hcc))]
    refine List.Nodup.append h (List.nodup_singleton t) ?_
    intro x hx hx2
    rw [List.mem_singleton] at hx2
    subst hx2
    exact hm hx

theorem mem_addFile_self (l : List FilePath2) (p : FilePath2) : p ∈ addFile l p := by
  unfold addFile
  by_cases hm : p ∈ l
  · rw [if_pos (List.elem_iff.mpr hm)]; exact hm
  · rw [if_neg (fun hcc => hm (List.elem_iff.mp hcc))]
    simp

theorem mem_addFile_of_mem (l : List FilePath2) (p x : FilePath2) (h : x ∈ l) :
    x ∈ addFile l p := by
  unfold addFile
  by_cases hm : p ∈ l
  · rw [if_pos (List.elem_iff.mpr hm)]; exact h
  · rw [if_neg (fun hcc => hm (List.elem_iff.mp hcc))]
    exact List.mem_append_left _ h

theorem pgfc_nil (env : Env) (m : Int) (fs : FS) (ow : Bool) :
    parent_geotiffs_from_children env m fs [] ow = (fs, []) := by
  rw [parent_geotiffs_from_children]

theorem pgfc_stop (env : Env) (m : Int) (fs : FS) (t : Tile) (ts : List Tile)
    (ow : Bool) (h : t.z < 0 ∨ t.z < m) :
    parent_geotiffs_from_children env m fs (t :: ts) ow = (fs, []) := by
  rw [parent_geotiffs_from_children]
  rw [dif_pos h]

theorem pgfc_cons (env : Env) (m : Int) (fs : FS) (t : Tile) (ts : List Tile)
    (ow : Bool) (h : ¬ (t.z < 0 ∨ t.z < m)) :
    parent_geotiffs_from_children env m fs (t :: ts) ow =
      ((parent_geotiffs_from_children env m (processRound env ow fs (t :: ts)).1
          (collectParents (processRound env ow fs (t :: ts)).2) ow).1,
        (t.z, (processRound env ow fs (t :: ts)).2) ::
          (parent_geotiffs_from_children env m (processRound env ow fs (t :: ts)).1
            (collectParents (processRound env ow fs (t :: ts)).2) ow).2) := by
  rw [parent_geotiffs_from_children]
  rw [dif_neg h]

theorem processRound_cons (env : Env) (ow : Bool) (fs : FS) (t : Tile) (ts : List Tile) :
    processRound env ow fs (t :: ts) =
      ((processRound env ow (parent_geotiff_from_children env fs t ow).1 ts).1,
        (t, (parent_geotiff_from_children env fs t ow).2) ::
          (processRound env ow (parent_geotiff_from_children env fs t ow).1 ts).2) := rfl

theorem processRound_map_fst (env : Env) (ow : Bool) :
    ∀ (l : List Tile) (fs : FS), ((processRound env ow fs l).2).map Prod.fst = l := by
  intro l
  induction l with
  | nil => intro fs; rfl
  | cons t ts ih =>
      intro fs
      rw [processRound_cons]
      simp only [List.map_cons]
      rw [ih]

theorem pgc_no_skip (env : Env) (fs : FS) (t : Tile) :
    (parent_geotiff_from_children env fs t true).2 ≠ POutcome.skip := by
  unfold parent_geotiff_from_children
  by_cases hp : env.parentFail t <;> simp [hp]

theorem pgc_built (env : Env) (fs : FS) (t : Tile) (h : env.parentFail t = false) :
    (parent_geotiff_from_children env fs t true).2 = POutcome.built := by
  unfold parent_geotiff_from_children
  simp [h]

theorem pgc_geo_mono (env : Env) (fs : FS) (t : Tile) (ow : Bool) (x : FilePath2)
    (h : x ∈ fs.geotiffs) :
    x ∈ (parent_geotiff_from_children env fs t ow).1.geotiffs := by
  simp only [parent_geotiff_from_children]
  split_ifs with h1 h2
  · exact h
  · exact h
  · exact mem_addFile_of_mem _ _ _ h

theorem processRound_no_skip (env : Env) :
    ∀ (l : List Tile) (fs : FS), ∀ o ∈ (processRound env true fs l).2,
      o.2 ≠ POutcome.skip := by
  intro l
  induction l with
  | nil => intro fs o ho; simp [processRound] at ho
  | cons t ts ih =>
      intro fs o ho
      rw [processRound_cons] at ho
      rcases List.mem_cons.mp ho with ho | ho
      · subst ho
        exact pgc_no_skip env fs t
      · exact ih _ o ho

theorem processRound_built (env : Env) :
    ∀ (l : List Tile) (fs : FS), (∀ t ∈ l, env.parentFail t = false) →
      ∀ o ∈ (processRound env true fs l).2, o.2 = POutcome.built := by
  intro l
  induction l with
  | nil => intro fs _ o ho; simp [processRound] at ho
  | cons t ts ih =>
      intro fs hnf o ho
      rw [processRound_cons] at ho
      rcases List.mem_cons.mp ho with ho | ho
      · subst ho
        exact pgc_built env fs t (hnf t (List.mem_cons_self _ _))
      · exact ih _ (fun u hu => hnf u (List.mem_cons_of_mem _ hu)) o ho

theorem processRound_geo_mono (env : Env) (ow : Bool) :
    ∀ (l : List Tile) (fs : FS) (x : FilePath2), x ∈ fs.geotiffs →
      x ∈ (processRound env ow fs l).1.geotiffs := by
  intro l
  induction l with
  | nil => intro fs x h; simpa [processRound]
  | cons t ts ih =>
      intro fs x h
      rw [processRound_cons]
      exact ih _ x (pgc_geo_mono env fs t ow x h)

theorem collectParents_aux (outs : List (Tile × POutcome)) :
    ∀ (acc : List Tile) (p : Tile),
      p ∈ outs.foldl
        (fun acc o => if o.2 = POutcome.built then dedupInsert acc (parentTile o.1) else acc)
        acc ↔
      p ∈ acc ∨ ∃ o, o ∈ outs ∧ o.2 = POutcome.built ∧ p = parentTile o.1 := by
  induction outs with
  | nil => intro acc p; simp
  | cons o os ih =>
      intro acc p
      simp only [List.foldl_cons]
      rw [ih]
      by_cases hb : o.2 = POutcome.built
      · simp only [hb, if_pos, mem_dedupInsert]
        constructor
        · intro h
          rcases h with (h | h) | h
          · exact Or.inl h
          · exact Or.inr ⟨o, List.mem_cons_self _ _, hb, h⟩
          · rcases h with ⟨o2, ho2, hb2, hp2⟩
            exact Or.inr ⟨o2, List.mem_cons_of_mem _ ho2, hb2, hp2⟩
        · intro h
          rcases h with h | ⟨o2, ho2, hb2, hp2⟩
          · exact Or.inl (Or.inl h)
          · rcases List.mem_cons.mp ho2 with ho2 | ho2
            · subst ho2
              exact Or.inl (Or.inr hp2)
            · exact Or.inr ⟨o2, ho2, hb2, hp2⟩
      · simp only [hb, if_neg, not_false_iff]
        constructor
        · intro h
          rcases h with h | ⟨o2, ho2, hb2, hp2⟩
          · exact Or.inl h
          · exact Or.inr ⟨o2, List.mem_cons_of_mem _ ho2, hb2, hp2⟩
        · intro h
          rcases h with h | ⟨o2, ho2, hb2, hp2⟩
          · exact Or.inl h
          · rcases List.mem_cons.mp ho2 with ho2 | ho2
            · subst ho2; exact absurd hb2 hb
            · exact Or.inr ⟨o2, ho2, hb2, hp2⟩

theorem mem_collectParents (outs : List (Tile × POutcome)) (p : Tile) :
    p ∈ collectParents outs ↔
      ∃ o, o ∈ outs ∧ o.2 = POutcome.built ∧ p = parentTile o.1 := by
  unfold collectParents
  rw [collectParents_aux]
  simp

theorem collectParents_z (outs : List (Tile × POutcome)) (z0 : Int)
    (h : ∀ o ∈ outs, (o.1).z = z0) :
    ∀ p ∈ collectParents outs, p.z = z0 - 1 := by
  intro p hp
  rcases (mem_collectParents outs p).mp hp with ⟨o, ho, _, hpe⟩
  subst hpe
  simp only [parentTile]
  rw [h o ho]

theorem pgfc_no_skip (env : Env) (m : Int) :
    ∀ (fs : FS) (tiles : List Tile) (ow : Bool), ow = true →
      ∀ rd ∈ (parent_geotiffs_from_children env m fs tiles ow).2,
        ∀ o ∈ rd.2, o.2 ≠ POutcome.skip := by
  intro fs tiles ow
  induction fs, tiles, ow using parent_geotiffs_from_children.induct env m with
  | case1 fs ow =>
      intro _ rd hrd
      rw [pgfc_nil] at hrd
      simp at hrd
  | case2 fs ow t ts h =>
      intro _ rd hrd
      rw [pgfc_stop _ _ _ _ _ _ h] at hrd
      simp at hrd
  | case3 fs ow t ts h fs1 outs hr fs2 rest heq ih =>
      intro how rd hrd o ho
      rw [pgfc_cons _ _ _ _ _ _ h, hr] at hrd
      simp only at hrd
      rcases List.mem_cons.mp hrd with hrd | hrd
      · subst hrd
        subst how
        refine processRound_no_skip env (t :: ts) fs o ?_
        rw [hr]
        exact ho
      · exact ih how rd hrd o ho

theorem pgfc_geo_mono (env : Env) (m : Int) :
    ∀ (fs : FS) (tiles : List Tile) (ow : Bool), ∀ x ∈ fs.geotiffs,
      x ∈ (parent_geotiffs_from_children env m fs tiles ow).1.geotiffs := by
  intro fs tiles ow
  induction fs, tiles, ow using parent_geotiffs_from_children.induct env m with
  | case1 fs ow =>
      intro x hx
      rw [pgfc_nil]
      exact hx
  | case2 fs ow t ts h =>
      intro x hx
      rw [pgfc_stop _ _ _ _ _ _ h]
      exact hx
  | case3 fs ow t ts h fs1 outs hr fs2 rest heq ih =>
      intro x hx
      rw [pgfc_cons _ _ _ _ _ _ h, hr]
      simp only
      refine ih x ?_
      have hm2 := processRound_geo_mono env ow (t :: ts) fs x hx
      rw [hr] at hm2
      exact hm2

theorem pgfc_floor (env : Env) (m : Int) :
    ∀ (fs : FS) (tiles : List Tile) (ow : Bool),
      (∃ z0, ∀ t ∈ tiles, t.z = z0) →
      ∀ rd ∈ (parent_geotiffs_from_children env m fs tiles ow).2,
        ∀ o ∈ rd.2, m ≤ o.1.z := by
  intro fs tiles ow
  induction fs, tiles, ow using parent_geotiffs_from_children.induct env m with
  | case1 fs ow =>
      intro _ rd hrd
      rw [pgfc_nil] at hrd
      simp at hrd
  | case2 fs ow t ts h =>
      intro _ rd hrd
      rw [pgfc_stop _ _ _ _ _ _ h] at hrd
      simp at hrd
  | case3 fs ow t ts h fs1 outs hr fs2 rest heq ih =>
      rintro ⟨z0, hz⟩ rd hrd o ho
      push_neg at h
      have houts : ∀ o2 ∈ outs, (o2 : Tile × POutcome).1.z = z0 := by
        intro o2 ho2
        have hmm : o2.1 ∈ (processRound env ow fs (t :: ts)).2.map Prod.fst := by
          rw [hr]
          exact List.mem_map_of_mem Prod.fst ho2
        rw [processRound_map_fst] at hmm
        exact hz o2.1 hmm
      rw [pgfc_cons _ _ _ _ _ _ (by push_neg; exact h), hr] at hrd
      simp only at hrd
      rcases List.mem_cons.mp hrd with hrd | hrd
      · subst hrd
        have h1 : o.1.z = z0 := houts o ho
        have h2 : t.z = z0 := hz t (List.mem_cons_self _ _)
        omega
      · refine ih ⟨z0 - 1, ?_⟩ rd hrd o ho
        exact collectParents_z outs z0 houts

theorem zoomList_self (m : Int) : zoomList m m = [m] := by
  unfold zoomList
  rw [show (m - m + 1).toNat = 1 by omega]
  rw [show List.range 1 = [0] from rfl]
  simp

theorem zoomList_cons (z0 m : Int) (h : m ≤ z0) :
    zoomList z0 m = z0 :: zoomList (z0 - 1) m := by
  unfold zoomList
  rw [show (z0 - m + 1).toNat = (z0 - 1 - m + 1).toNat + 1 by omega]
  rw [List.range_succ_eq_map]
  simp only [List.map_cons, List.map_map, Nat.cast_zero, sub_zero]
  congr 1
  refine List.map_congr_left ?_
  intro a _
  simp only [Function.comp_apply]
  push_cast
  ring

theorem pgfc_ladder (env : Env) (m : Int) (hm : 0 ≤ m) :
    ∀ (n : Nat) (z0 : Int) (fs : FS) (tiles : List Tile),
      (z0 - m).toNat = n → m ≤ z0 → tiles ≠ [] →
      (∀ t ∈ tiles, t.z = z0) → (∀ t, env.parentFail t = false) →
      (parent_geotiffs_from_children env m fs tiles true).2.map Prod.fst =
        zoomList z0 m := by
  intro n
  induction n with
  | zero =>
      intro z0 fs tiles hn hmz hne hz hnf
      have hz0 : z0 = m := by omega
      cases tiles with
      | nil => exact absurd rfl hne
      | cons t ts =>
          have htz : t.z = z0 := hz t (List.mem_cons_self _ _)
          have hguard : ¬ (t.z < 0 ∨ t.z < m) := by omega
          rw [pgfc_cons _ _ _ _ _ _ hguard]
          have houts : ∀ o ∈ (processRound env true fs (t :: ts)).2,
              (o : Tile × POutcome).1.z = z0 := by
            intro o ho
            have hmm : o.1 ∈ ((processRound env true fs (t :: ts)).2).map Prod.fst :=
              List.mem_map_of_mem Prod.fst ho
            rw [processRound_map_fst] at hmm
            exact hz o.1 hmm
          have hpz := collectParents_z _ z0 houts
          cases hP : collectParents (processRound env true fs (t :: ts)).2 with
          | nil =>
              rw [pgfc_nil]
              simp only [List.map_cons, List.map_nil]
              rw [htz, hz0, zoomList_self]
          | cons p ps =>
              have hpz2 : p.z = z0 - 1 := hpz p (by rw [hP]; exact List.mem_cons_self _ _)
              rw [pgfc_stop _ _ _ _ _ _ (by omega)]
              simp only [List.map_cons, List.map_nil]
              rw [htz, hz0, zoomList_self]
  | succ k ih =>
      intro z0 fs tiles hn hmz hne hz hnf
      cases tiles with
      | nil => exact absurd rfl hne
      | cons t ts =>
          have htz : t.z = z0 := hz t (List.mem_cons_self _ _)
          have hguard : ¬ (t.z < 0 ∨ t.z < m) := by omega
          rw [pgfc_cons _ _ _ _ _ _ hguard]
          have houts : ∀ o ∈ (processRound env true fs (t :: ts)).2,
              (o : Tile × POutcome).1.z = z0 := by
            intro o ho
            have hmm : o.1 ∈ ((processRound env true fs (t :: ts)).2).map Prod.fst :=
              List.mem_map_of_mem Prod.fst ho
            rw [processRound_map_fst] at hmm
            exact hz o.1 hmm
          have hpz := collectParents_z _ z0 houts
          have hhead : (t, POutcome.built) ∈ (processRound env true fs (t :: ts)).2 := by
            rw [processRound_cons]
            rw [pgc_built env fs t (hnf t)]
            exact List.mem_cons_self _ _
          have pmem : parentTile t ∈ collectParents (processRound env true fs (t :: ts)).2 :=
            (mem_collectParents _ _).mpr ⟨(t, POutcome.built), hhead, rfl, rfl⟩
          cases hP : collectParents (processRound env true fs (t :: ts)).2 with
          | nil =>
              rw [hP] at pmem
              cases pmem
          | cons p ps =>
              rw [hP] at hpz
              have hrest := ih (z0 - 1) (processRound env true fs (t :: ts)).1 (p :: ps)
                (by omega) (by omega) (List.cons_ne_nil p ps)
                (by intro u hu; exact hpz u hu) hnf
              simp only [List.map_cons]
              rw [hrest, htz, zoomList_cons z0 m (by omega)]

/-- C3: For configured min zoom m, no tile with zoom below m is ever processed
by the parent-building recursion: every tile appearing in any round of
parent_geotiffs_from_children has zoom at least m (given the precondition that
all input tiles share one zoom).  Moreover, when the floor is nonnegative and
at most the starting zoom, the input set is nonempty, overwrite is on and no
parent build fails, the recursion visits exactly the zooms from the starting
level down to m inclusive and then halts. -/
theorem c3_pyramid_floor (env : Env) (m : Int) (fs : FS) (tiles : List Tile)
    (ow : Bool) (z0 : Int) (hz : ∀ t ∈ tiles, t.z = z0) :
    (∀ rd ∈ (parent_geotiffs_from_children env m fs tiles ow).2,
        ∀ o ∈ rd.2, m ≤ o.1.z) ∧
    (0 ≤ m → m ≤ z0 → tiles ≠ [] → ow = true →
      (∀ t, env.parentFail t = false) →
      (parent_geotiffs_from_children env m fs tiles ow).2.map Prod.fst =
        zoomList z0 m) := by
  constructor
  · exact pgfc_floor env m fs tiles ow ⟨z0, hz⟩
  · intro hm hmz hne how hnf
    subst how
    exact pgfc_ladder env m hm ((z0 - m).toNat) z0 fs tiles rfl hmz hne hz hnf

/-- Witness for C3 at a concrete input: starting from the single tile t30 at
zoom 3 with floor 2, the recursion visits exactly zooms 3 and 2. -/
theorem c3_witness :
    (parent_geotiffs_from_children cEnvBase 2 fs0 [t30] true).2.map Prod.fst =
      zoomList 3 2 := by
  exact (c3_pyramid_floor cEnvBase 2 fs0 [t30] true 3 (by decide)).2
    (by decide) (by decide) (by decide) rfl (fun t => rfl)

theorem rv_none (env : Env) (fs : FS) (p : FilePath2) (ow : Bool)
    (htp : env.tileOfPath p = none) :
    rasterize_vector env fs p ow = (fs, Except.error Err.unboundLocalTile) := by
  unfold rasterize_vector
  rw [htp]

theorem rv_skip (env : Env) (fs : FS) (p : FilePath2) (t : Tile)
    (htp : env.tileOfPath p = some t)
    (hc : fs.geotiffs.contains (env.geoPathOf t) = true) :
    rasterize_vector env fs p false = (fs, Except.ok none) := by
  unfold rasterize_vector
  rw [htp]
  simp only
  rw [if_pos ⟨hc, by simp⟩]

theorem rv_fail (env : Env) (fs : FS) (p : FilePath2) (t : Tile) (ow : Bool)
    (htp : env.tileOfPath p = some t)
    (hns : ¬ (fs.geotiffs.contains (env.geoPathOf t) = true ∧ ¬ ow = true))
    (hf : env.boundsFail p = true ∨ env.readFail p = true ∨
      env.dedupFail p = true ∨ env.rasterFail p = true) :
    rasterize_vector env fs p ow =
      ({ fs with events := fs.events ++ [⟨some t, true⟩] }, Except.ok none) := by
  unfold rasterize_vector
  rw [htp]
  simp only
  rw [if_neg hns, if_pos hf]

theorem rv_success (env : Env) (fs : FS) (p : FilePath2) (t : Tile) (ow : Bool)
    (htp : env.tileOfPath p = some t)
    (hns : ¬ (fs.geotiffs.contains (env.geoPathOf t) = true ∧ ¬ ow = true))
    (hf : ¬ (env.boundsFail p = true ∨ env.readFail p = true ∨
      env.dedupFail p = true ∨ env.rasterFail p = true)) :
    rasterize_vector env fs p ow =
      ({ fs with
          geotiffs := addFile fs.geotiffs (env.geoPathOf t),
          summaryCount := fs.summaryCount + env.bands p,
          events := fs.events ++ [⟨some t, false⟩] }, Except.ok (some t)) := by
  unfold rasterize_vector
  rw [htp]
  simp only
  rw [if_neg hns, if_neg hf]

theorem rv_geo_mono (env : Env) (fs : FS) (p : FilePath2) (ow : Bool)
    (x : FilePath2) (h : x ∈ fs.geotiffs) :
    x ∈ (rasterize_vector env fs p ow).1.geotiffs := by
  unfold rasterize_vector
  cases env.tileOfPath p with
  | none => exact h
  | some t =>
      simp only
      split_ifs with h1 h2
      · exact h
      · exact h
      · exact mem_addFile_of_mem _ _ _ h

theorem rv_err (env : Env) (fs : FS) (p : FilePath2) (ow : Bool) (e : Err)
    (h : (rasterize_vector env fs p ow).2 = Except.error e) :
    e = Err.unboundLocalTile := by
  unfold rasterize_vector at h
  cases htp : env.tileOfPath p with
  | none =>
      rw [htp] at h
      simp only at h
      exact (Except.error.inj h).symm
  | some t =>
      rw [htp] at h
      simp only at h
      split_ifs at h <;> simp at h

theorem rloop_cons (env : Env) (ow : Bool) (fs : FS) (acc : List Tile)
    (tr : List (FilePath2 × Option Tile)) (p : FilePath2) (ps : List FilePath2) :
    rasterize_loop env ow fs acc tr (p :: ps) =
      match rasterize_vector env fs p ow with
      | (fs1, Except.error e) => (fs1, Except.error e)
      | (fs1, Except.ok none) => rasterize_loop env ow fs1 acc (tr ++ [(p, none)]) ps
      | (fs1, Except.ok (some t)) =>
          rasterize_loop env ow fs1 (dedupInsert acc (parentTile t))
            (tr ++ [(p, some t)]) ps := rfl

theorem rloop_geo_mono (env : Env) (ow : Bool) :
    ∀ (ps : List FilePath2) (fs : FS) (acc : List Tile)
      (tr : List (FilePath2 × Option Tile)), ∀ x ∈ fs.geotiffs,
      x ∈ (rasterize_loop env ow fs acc tr ps).1.geotiffs := by
  intro ps
  induction ps with
  | nil => intro fs acc tr x hx; exact hx
  | cons p ps ih =>
      intro fs acc tr x hx
      rw [rloop_cons]
      rcases hrv : rasterize_vector env fs p ow with ⟨fs1, r⟩
      have hx1 : x ∈ fs1.geotiffs := by
        have h2 := rv_geo_mono env fs p ow x hx
        rw [hrv] at h2
        exact h2
      cases r with
      | error e => exact hx1
      | ok o =>
          cases o with
          | none => exact ih fs1 acc (tr ++ [(p, none)]) x hx1
          | some t => exact ih fs1 (dedupInsert acc (parentTile t)) (tr ++ [(p, some t)]) x hx1

theorem rloop_err (env : Env) (ow : Bool) :
    ∀ (ps : List FilePath2) (fs : FS) (acc : List Tile)
      (tr : List (FilePath2 × Option Tile)) (e : Err),
      (rasterize_loop env ow fs acc tr ps).2 = Except.error e →
      e = Err.unboundLocalTile := by
  intro ps
  induction ps with
  | nil =>
      intro fs acc tr e h
      simp [rasterize_loop] at h
  | cons p ps ih =>
      intro fs acc tr e h
      rw [rloop_cons] at h
      rcases hrv : rasterize_vector env fs p ow with ⟨fs1, r⟩
      rw [hrv] at h
      cases r with
      | error e2 =>
          simp only at h
          have he2 : e2 = e := Except.error.inj h
          subst he2
          refine rv_err env fs p ow e2 ?_
          rw [hrv]
      | ok o =>
          cases o with
          | none => exact ih fs1 acc (tr ++ [(p, none)]) e h
          | some t => exact ih fs1 (dedupInsert acc (parentTile t)) (tr ++ [(p, some t)]) e h

theorem rvs_nil (env : Env) (cfg : WorkflowConfig) (fs : FS) (paths : List FilePath2)
    (mk ow : Bool)
    (hF : paths.filter (fun p => env.vectorFiles.contains p) = []) :
    rasterize_vectors env cfg fs paths mk ow = (fs, Except.error Err.noVectorFiles) := by
  unfold rasterize_vectors
  rw [hF]

theorem rvs_refDecode (env : Env) (cfg : WorkflowConfig) (fs : FS)
    (paths : List FilePath2) (mk ow : Bool) (p0 : FilePath2) (rest : List FilePath2)
    (hF : paths.filter (fun p => env.vectorFiles.contains p) = p0 :: rest)
    (htp : env.tileOfPath p0 = none) :
    rasterize_vectors env cfg fs paths mk ow = (fs, Except.error Err.refDecode) := by
  unfold rasterize_vectors
  rw [hF]
  simp only
  rw [htp]

theorem rvs_zMismatch (env : Env) (cfg : WorkflowConfig) (fs : FS)
    (paths : List FilePath2) (mk ow : Bool) (p0 : FilePath2) (rest : List FilePath2)
    (rt : Tile)
    (hF : paths.filter (fun p => env.vectorFiles.contains p) = p0 :: rest)
    (htp : env.tileOfPath p0 = some rt) (hz : rt.z ≠ cfg.maxZ) :
    rasterize_vectors env cfg fs paths mk ow = (fs, Except.error Err.zMismatch) := by
  unfold rasterize_vectors
  rw [hF]
  simp only
  rw [htp]
  simp only
  rw [if_pos hz]

theorem rvs_tmsMismatch (env : Env) (cfg : WorkflowConfig) (fs : FS)
    (paths : List FilePath2) (mk ow : Bool) (p0 : FilePath2) (rest : List FilePath2)
    (rt : Tile)
    (hF : paths.filter (fun p => env.vectorFiles.contains p) = p0 :: rest)
    (htp : env.tileOfPath p0 = some rt) (hz : rt.z = cfg.maxZ)
    (htm : rt.tms ≠ cfg.tmsId) :
    rasterize_vectors env cfg fs paths mk ow = (fs, Except.error Err.tmsMismatch) := by
  unfold rasterize_vectors
  rw [hF]
  simp only
  rw [htp]
  simp only
  rw [if_neg (not_not_intro hz), if_pos htm]

theorem rvs_loopError (env : Env) (cfg : WorkflowConfig) (fs : FS)
    (paths : List FilePath2) (mk ow : Bool) (p0 : FilePath2) (rest : List FilePath2)
    (rt : Tile) (fs1 : FS) (e : Err)
    (hF : paths.filter (fun p => env.vectorFiles.contains p) = p0 :: rest)
    (htp : env.tileOfPath p0 = some rt) (hz : rt.z = cfg.maxZ)
    (htm : rt.tms = cfg.tmsId)
    (hl : rasterize_loop env ow fs [] [] (p0 :: rest) = (fs1, Except.error e)) :
    rasterize_vectors env cfg fs paths mk ow = (fs1, Except.error e) := by
  unfold rasterize_vectors
  rw [hF]
  simp only
  rw [htp]
  simp only
  rw [if_neg (not_not_intro hz), if_neg (not_not_intro htm), hl]

theorem rvs_ok_mk (env : Env) (cfg : WorkflowConfig) (fs : FS)
    (paths : List FilePath2) (ow : Bool) (p0 : FilePath2) (rest : List FilePath2)
    (rt : Tile) (fs1 : FS) (parents : List Tile)
    (tr : List (FilePath2 × Option Tile))
    (hF : paths.filter (fun p => env.vectorFiles.contains p) = p0 :: rest)
    (htp : env.tileOfPath p0 = some rt) (hz : rt.z = cfg.maxZ)
    (htm : rt.tms = cfg.tmsId)
    (hl : rasterize_loop env ow fs [] [] (p0 :: rest) = (fs1, Except.ok (parents, tr))) :
    rasterize_vectors env cfg fs paths true ow =
      ((parent_geotiffs_from_children env cfg.minZ fs1 parents true).1,
        Except.ok ⟨parents, tr,
          (parent_geotiffs_from_children env cfg.minZ fs1 parents true).2, none⟩) := by
  unfold rasterize_vectors
  rw [hF]
  simp only
  rw [htp]
  simp only
  rw [if_neg (not_not_intro hz), if_neg (not_not_intro htm), hl]
  simp

theorem rvs_ok_nomk (env : Env) (cfg : WorkflowConfig) (fs : FS)
    (paths : List FilePath2) (ow : Bool) (p0 : FilePath2) (rest : List FilePath2)
    (rt : Tile) (fs1 : FS) (parents : List Tile)
    (tr : List (FilePath2 × Option Tile))
    (hF : paths.filter (fun p => env.vectorFiles.contains p) = p0 :: rest)
    (htp : env.tileOfPath p0 = some rt) (hz : rt.z = cfg.maxZ)
    (htm : rt.tms = cfg.tmsId)
    (hl : rasterize_loop env ow fs [] [] (p0 :: rest) = (fs1, Except.ok (parents, tr))) :
    rasterize_vectors env cfg fs paths false ow =
      (fs1, Except.ok ⟨parents, tr, [], none⟩) := by
  unfold rasterize_vectors
  rw [hF]
  simp only
  rw [htp]
  simp only
  rw [if_neg (not_not_intro hz), if_neg (not_not_intro htm), hl]
  simp

theorem rloop_parents (env : Env) (ow : Bool) :
    ∀ (ps : List FilePath2) (fs : FS) (acc : List Tile)
      (tr : List (FilePath2 × Option Tile)) (fs2 : FS)
      (pr : List Tile × List (FilePath2 × Option Tile)),
      rasterize_loop env ow fs acc tr ps = (fs2, Except.ok pr) →
      (∀ x ∈ acc, x ∈ pr.1) ∧ (acc.Nodup → pr.1.Nodup) ∧
      (∀ p t, (p, some t) ∈ pr.2 → (p, some t) ∈ tr ∨ parentTile t ∈ pr.1) := by
  intro ps
  induction ps with
  | nil =>
      intro fs acc tr fs2 pr h
      simp only [rasterize_loop, Prod.mk.injEq, Except.ok.injEq] at h
      obtain ⟨-, h2⟩ := h
      subst h2
      exact ⟨fun x hx => hx, fun hn => hn, fun p t hp => Or.inl hp⟩
  | cons p ps ih =>
      intro fs acc tr fs2 pr h
      rw [rloop_cons] at h
      rcases hrv : rasterize_vector env fs p ow with ⟨fs1, r⟩
      rw [hrv] at h
      cases r with
      | error e => simp at h
      | ok o =>
          cases o with
          | none =>
              obtain ⟨ha, hn, ht⟩ := ih fs1 acc (tr ++ [(p, none)]) fs2 pr h
              refine ⟨ha, hn, ?_⟩
              intro q t hq
              rcases ht q t hq with hin | hp2
              · rcases List.mem_append.mp hin with hin | hin
                · exact Or.inl hin
                · simp at hin
              · exact Or.inr hp2
          | some t0 =>
              obtain ⟨ha, hn, ht⟩ :=
                ih fs1 (dedupInsert acc (parentTile t0)) (tr ++ [(p, some t0)]) fs2 pr h
              refine ⟨?_, ?_, ?_⟩
              · intro x hx
                exact ha x ((mem_dedupInsert _ _ _).mpr (Or.inl hx))
              · intro hnd
                exact hn (nodup_dedupInsert _ _ hnd)
              · intro q t hq
                rcases ht q t hq with hin | hp2
                · rcases List.mem_append.mp hin with hin | hin
                  · exact Or.inl hin
                  · rw [List.mem_singleton] at hin
                    have hq2 : q = p ∧ t = t0 := by
                      constructor
                      · exact congrArg Prod.fst hin
                      · have := congrArg Prod.snd hin
                        simp only at this
                        exact Option.some.inj this
                    rw [hq2.2]
                    exact Or.inr (ha (parentTile t0)
                      ((mem_dedupInsert _ _ _).mpr (Or.inr rfl)))
                · exact Or.inr hp2

theorem rloop_idem (env : Env) :
    ∀ (ps : List FilePath2) (A B : FS) (acc1 acc2 : List Tile)
      (tr1 tr2 : List (FilePath2 × Option Tile)),
      (∀ x ∈ (rasterize_loop env false A acc1 tr1 ps).1.geotiffs, x ∈ B.geotiffs) →
      ((rasterize_loop env false B acc2 tr2 ps).1.summaryCount = B.summaryCount ∧
        (rasterize_loop env false B acc2 tr2 ps).1.geotiffs = B.geotiffs ∧
        ∀ pr, (rasterize_loop env false B acc2 tr2 ps).2 = Except.ok pr →
          pr.1 = acc2) := by
  intro ps
  induction ps with
  | nil =>
      intro A B acc1 acc2 tr1 tr2 hsub
      refine ⟨rfl, rfl, ?_⟩
      intro pr h
      simp only [rasterize_loop, Except.ok.injEq] at h
      rw [← h]
  | cons p ps ih =>
      intro A B acc1 acc2 tr1 tr2 hsub
      cases htp : env.tileOfPath p with
      | none =>
          rw [rloop_cons, rv_none env B p false htp]
          exact ⟨rfl, rfl, fun pr h => by simp at h⟩
      | some t =>
          by_cases hAc : A.geotiffs.contains (env.geoPathOf t) = true
          · have hb1 : (rasterize_loop env false A acc1 tr1 (p :: ps)).1 =
                (rasterize_loop env false A acc1 (tr1 ++ [(p, none)]) ps).1 := by
              rw [rloop_cons, rv_skip env A p t htp hAc]
            rw [hb1] at hsub
            have hout : env.geoPathOf t ∈ B.geotiffs := by
              apply hsub
              apply rloop_geo_mono
              exact List.elem_iff.mp hAc
            have hBc : B.geotiffs.contains (env.geoPathOf t) = true :=
              List.elem_iff.mpr hout
            rw [rloop_cons, rv_skip env B p t htp hBc]
            exact ih A B acc1 acc2 (tr1 ++ [(p, none)]) (tr2 ++ [(p, none)]) hsub
          · by_cases hfl : (env.boundsFail p = true ∨ env.readFail p = true ∨
                env.dedupFail p = true ∨ env.rasterFail p = true)
            · have hnsA : ¬ (A.geotiffs.contains (env.geoPathOf t) = true ∧
                  ¬ false = true) := fun hcontr => hAc hcontr.1
              have hb1 : (rasterize_loop env false A acc1 tr1 (p :: ps)).1 =
                  (rasterize_loop env false
                    { A with events := A.events ++ [⟨some t, true⟩] } acc1
                    (tr1 ++ [(p, none)]) ps).1 := by
                rw [rloop_cons, rv_fail env A p t false htp hnsA hfl]
              rw [hb1] at hsub
              by_cases hBc : B.geotiffs.contains (env.geoPathOf t) = true
              · rw [rloop_cons, rv_skip env B p t htp hBc]
                exact ih _ B acc1 acc2 (tr1 ++ [(p, none)]) (tr2 ++ [(p, none)]) hsub
              · have hnsB : ¬ (B.geotiffs.contains (env.geoPathOf t) = true ∧
                    ¬ false = true) := fun hcontr => hBc hcontr.1
                rw [rloop_cons, rv_fail env B p t false htp hnsB hfl]
                exact ih _ { B with events := B.events ++ [⟨some t, true⟩] }
                  acc1 acc2 (tr1 ++ [(p, none)]) (tr2 ++ [(p, none)]) hsub
            · have hnsA : ¬ (A.geotiffs.contains (env.geoPathOf t) = true ∧
                  ¬ false = true) := fun hcontr => hAc hcontr.1
              have hb1 : (rasterize_loop env false A acc1 tr1 (p :: ps)).1 =
                  (rasterize_loop env false
                    { A with
                      geotiffs := addFile A.geotiffs (env.geoPathOf t),
                      summaryCount := A.summaryCount + env.bands p,
                      events := A.events ++ [⟨some t, false⟩] }
                    (dedupInsert acc1 (parentTile t)) (tr1 ++ [(p, some t)]) ps).1 := by
                rw [rloop_cons, rv_success env A p t false htp hnsA hfl]
              rw [hb1] at hsub
              have hout : env.geoPathOf t ∈ B.geotiffs := by
                apply hsub
                apply rloop_geo_mono
                exact mem_addFile_self _ _
              have hBc : B.geotiffs.contains (env.geoPathOf t) = true :=
                List.elem_iff.mpr hout
              rw [rloop_cons, rv_skip env B p t htp hBc]
              exact ih _ B (dedupInsert acc1 (parentTile t)) acc2
                (tr1 ++ [(p, some t)]) (tr2 ++ [(p, none)]) hsub

theorem rvs_second (env : Env) (cfg : WorkflowConfig) (paths : List FilePath2)
    (mk : Bool) (p0 : FilePath2) (rest : List FilePath2) (rt : Tile) (A B : FS)
    (hF : paths.filter (fun p => env.vectorFiles.contains p) = p0 :: rest)
    (htp : env.tileOfPath p0 = some rt) (hz : rt.z = cfg.maxZ)
    (htm : rt.tms = cfg.tmsId)
    (hsub : ∀ x ∈ (rasterize_loop env false A [] [] (p0 :: rest)).1.geotiffs,
      x ∈ B.geotiffs) :
    (rasterize_vectors env cfg B paths mk false).1.summaryCount =
      B.summaryCount := by
  have hidem := rloop_idem env (p0 :: rest) A B [] [] [] [] hsub
  rcases hl2 : rasterize_loop env false B [] [] (p0 :: rest) with ⟨fs2, r2⟩
  obtain ⟨hc2, hg2, hp2⟩ := hidem
  rw [hl2] at hc2 hg2 hp2
  simp only at hc2 hg2 hp2
  cases r2 with
  | error e2 =>
      rw [rvs_loopError env cfg B paths mk false p0 rest rt fs2 e2 hF htp hz htm hl2]
      exact hc2
  | ok pr2 =>
      rcases pr2 with ⟨par2, tr2⟩
      have hpar : par2 = [] := hp2 (par2, tr2) rfl
      subst hpar
      cases mk with
      | false =>
          rw [rvs_ok_nomk env cfg B paths false p0 rest rt fs2 [] tr2 hF htp hz htm hl2]
          exact hc2
      | true =>
          rw [rvs_ok_mk env cfg B paths false p0 rest rt fs2 [] tr2 hF htp hz htm hl2]
          rw [pgfc_nil]
          exact hc2

/-- C7: Idempotence of leaf rasterization.  First, rasterize_vector with
overwrite off on a path whose output geotiff already exists is a no-op: it
returns None and leaves the state unchanged, appending zero summary rows and
zero event rows.  Second, running rasterize_vectors twice with overwrite off
on identical inputs appends zero summary rows on the second run: every path
that can succeed already has its output after the first run, so the second
leaf loop only skips or re-fails, collects no parents, and the parent phase
receives an empty set. -/
theorem c7_idempotence :
    (∀ (env : Env) (fs : FS) (path : FilePath2) (t : Tile),
        env.tileOfPath path = some t →
        fs.geotiffs.contains (env.geoPathOf t) = true →
        rasterize_vector env fs path false = (fs, Except.ok none)) ∧
    (∀ (env : Env) (cfg : WorkflowConfig) (fs : FS) (paths : List FilePath2)
        (mk : Bool),
        (rasterize_vectors env cfg (rasterize_vectors env cfg fs paths mk false).1
            paths mk false).1.summaryCount =
          (rasterize_vectors env cfg fs paths mk false).1.summaryCount) := by
  constructor
  · intro env fs path t htp hc
    exact rv_skip env fs path t htp hc
  · intro env cfg fs paths mk
    cases hF : paths.filter (fun p => env.vectorFiles.contains p) with
    | nil =>
        rw [rvs_nil env cfg fs paths mk false hF]
        simp only
        rw [rvs_nil env cfg fs paths mk false hF]
    | cons p0 rest =>
        cases htp : env.tileOfPath p0 with
        | none =>
            rw [rvs_refDecode env cfg fs paths mk false p0 rest hF htp]
            simp only
            rw [rvs_refDecode env cfg fs paths mk false p0 rest hF htp]
        | some rt =>
            by_cases hz : rt.z = cfg.maxZ
            · by_cases htm : rt.tms = cfg.tmsId
              · rcases hl1 : rasterize_loop env false fs [] [] (p0 :: rest) with ⟨fs1, r1⟩
                cases r1 with
                | error e =>
                    rw [rvs_loopError env cfg fs paths mk false p0 rest rt fs1 e
                      hF htp hz htm hl1]
                    simp only
                    exact rvs_second env cfg paths mk p0 rest rt fs fs1 hF htp hz htm
                      (fun x hx => by rw [hl1] at hx; exact hx)
                | ok pr1 =>
                    rcases pr1 with ⟨par1, tr1⟩
                    cases mk with
                    | false =>
                        rw [rvs_ok_nomk env cfg fs paths false p0 rest rt fs1 par1 tr1
                          hF htp hz htm hl1]
                        simp only
                        exact rvs_second env cfg paths false p0 rest rt fs fs1
                          hF htp hz htm
                          (fun x hx => by rw [hl1] at hx; exact hx)
                    | true =>
                        rw [rvs_ok_mk env cfg fs paths false p0 rest rt fs1 par1 tr1
                          hF htp hz htm hl1]
                        simp only
                        exact rvs_second env cfg paths true p0 rest rt fs
                          (parent_geotiffs_from_children env cfg.minZ fs1 par1 true).1
                          hF htp hz htm
                          (fun x hx => by
                            rw [hl1] at hx
                            exact pgfc_geo_mono env cfg.minZ fs1 par1 true x hx)
              · rw [rvs_tmsMismatch env cfg fs paths mk false p0 rest rt hF htp hz htm]
                simp only
                rw [rvs_tmsMismatch env cfg fs paths mk false p0 rest rt hF htp hz htm]
            · rw [rvs_zMismatch env cfg fs paths mk false p0 rest rt hF htp hz]
              simp only
              rw [rvs_zMismatch env cfg fs paths mk false p0 rest rt hF htp hz]

/-- C10: rasterize_vectors with make_parents on does not propagate its
overwrite argument to the parent build: parent_geotiffs_from_children is
invoked with its default overwrite True.  Hence, even when the caller passes
overwrite False, no parent tile is ever skipped — a parent whose geotiff
already exists is rebuilt and overwritten. -/
theorem c10_parent_overwrite (env : Env) (cfg : WorkflowConfig) (fs : FS)
    (paths : List FilePath2) (fs2 : FS) (r : RVOut)
    (h : rasterize_vectors env cfg fs paths true false = (fs2, Except.ok r)) :
    ∀ rd ∈ r.rounds, ∀ o ∈ rd.2, o.2 ≠ POutcome.skip := by
  cases hF : paths.filter (fun p => env.vectorFiles.contains p) with
  | nil =>
      rw [rvs_nil env cfg fs paths true false hF] at h
      simp at h
  | cons p0 rest =>
      cases htp : env.tileOfPath p0 with
      | none =>
          rw [rvs_refDecode env cfg fs paths true false p0 rest hF htp] at h
          simp at h
      | some rt =>
          by_cases hz : rt.z = cfg.maxZ
          · by_cases htm : rt.tms = cfg.tmsId
            · rcases hl : rasterize_loop env false fs [] [] (p0 :: rest) with ⟨fs1, r1⟩
              cases r1 with
              | error e =>
                  rw [rvs_loopError env cfg fs paths true false p0 rest rt fs1 e
                    hF htp hz htm hl] at h
                  simp at h
              | ok pr =>
                  rcases pr with ⟨par, tr⟩
                  rw [rvs_ok_mk env cfg fs paths false p0 rest rt fs1 par tr
                    hF htp hz htm hl] at h
                  rw [Prod.mk.injEq] at h
                  obtain ⟨-, h2⟩ := h
                  have hr : r = ⟨par, tr,
                      (parent_geotiffs_from_children env cfg.minZ fs1 par true).2,
                      none⟩ :=
                    (Except.ok.inj h2).symm
                  subst hr
                  intro rd hrd o ho
                  exact pgfc_no_skip env cfg.minZ fs1 par true rfl rd hrd o ho
            · rw [rvs_tmsMismatch env cfg fs paths true false p0 rest rt hF htp hz htm] at h
              simp at h
          · rw [rvs_zMismatch env cfg fs paths true false p0 rest rt hF htp hz] at h
            simp at h

/-- Witness for C10 at a concrete input: over a file system where the parent
geotiff of t30 already exists, rasterize_vectors with overwrite False still
rebuilds that parent (outcome built, never skip). -/
theorem c10_witness :
    rasterize_vectors cEnvBase cCfg fsP ["v1"] true false = (fsPX, Except.ok rPX) ∧
    (p20, POutcome.built).2 ≠ POutcome.skip := by
  have hl : rasterize_loop cEnvBase false fsP [] [] ["v1"] =
      (fs1P, Except.ok ([p20], [("v1", some t30)])) := by decide
  have hp : parent_geotiffs_from_children cEnvBase 2 fs1P [p20] true =
      (fsPX, [(2, [(p20, POutcome.built)])]) := by
    rw [pgfc_cons _ _ _ _ _ _ (by decide)]
    have h1 : processRound cEnvBase true fs1P [p20] =
        (fsPX, [(p20, POutcome.built)]) := by decide
    rw [h1]
    have h2 : collectParents [(p20, POutcome.built)] = [p10] := by decide
    simp only [h2]
    rw [pgfc_stop _ _ _ _ _ _ (by decide)]
    decide
  have heq : rasterize_vectors cEnvBase cCfg fsP ["v1"] true false =
      (fsPX, Except.ok rPX) := by
    rw [rvs_ok_mk cEnvBase cCfg fsP ["v1"] false "v1" [] t30 fs1P [p20]
      [("v1", some t30)] (by decide) rfl rfl rfl hl]
    rw [show cCfg.minZ = 2 from rfl]
    rw [hp]
    rfl
  exact ⟨heq, c10_parent_overwrite cEnvBase cCfg fsP ["v1"] fsPX rPX heq
    (2, [(p20, POutcome.built)]) (by decide) (p20, POutcome.built) (by decide)⟩

/-- C4: Evaluation of the code at the failing input.  A failure while decoding
the tile coordinate of a path is not caught: the except block of
rasterize_vector evaluates the unbound local variable tile, so an
UnboundLocalError escapes and the whole rasterize_vectors loop aborts — here
path v2, which comes after the undecodable path bad, is never rasterized
(its geotiff is absent from the final state).  By contrast, a vector-read
failure after the coordinate was decoded (path vfail) is caught per file:
one error event row is appended and rasterize_vector returns None. -/
theorem c4_decode_failure_aborts :
    rasterize_vectors cEnvBase cCfg fs0 ["v1", "bad", "v2"] false true =
      (⟨["geo-0-0-3"], [], 2, [⟨some t30, false⟩]⟩,
        Except.error Err.unboundLocalTile) ∧
    ((["geo-0-0-3"] : List FilePath2).contains (cEnvBase.geoPathOf t31)) = false ∧
    rasterize_vector cEnvBase fs0 "vfail" true =
      ({ fs0 with events := [⟨some t32, true⟩] }, Except.ok none) := by
  decide

/-- C5 (amended): rasterize_vectors returns None to its caller; the
deduplicated parent set it constructs and passes to the parent build contains
the parent of every successfully rasterized tile and holds no duplicates. -/
theorem c5_parent_set (env : Env) (cfg : WorkflowConfig) (fs : FS)
    (paths : List FilePath2) (mk ow : Bool) (fs2 : FS) (r : RVOut)
    (h : rasterize_vectors env cfg fs paths mk ow = (fs2, Except.ok r)) :
    r.pyReturn = none ∧ r.parents.Nodup ∧
    ∀ p t, (p, some t) ∈ r.trace → parentTile t ∈ r.parents := by
  cases hF : paths.filter (fun p => env.vectorFiles.contains p) with
  | nil =>
      rw [rvs_nil env cfg fs paths mk ow hF] at h
      simp at h
  | cons p0 rest =>
      cases htp : env.tileOfPath p0 with
      | none =>
          rw [rvs_refDecode env cfg fs paths mk ow p0 rest hF htp] at h
          simp at h
      | some rt =>
          by_cases hz : rt.z = cfg.maxZ
          · by_cases htm : rt.tms = cfg.tmsId
            · rcases hl : rasterize_loop env ow fs [] [] (p0 :: rest) with ⟨fs1, r1⟩
              cases r1 with
              | error e =>
                  rw [rvs_loopError env cfg fs paths mk ow p0 rest rt fs1 e
                    hF htp hz htm hl] at h
                  simp at h
              | ok pr =>
                  rcases pr with ⟨par, tr⟩
                  obtain ⟨ha, hn, ht⟩ :=
                    rloop_parents env ow (p0 :: rest) fs [] [] fs1 (par, tr) hl
                  have hmem : ∀ p t, (p, some t) ∈ tr → parentTile t ∈ par := by
                    intro p t hp
                    rcases ht p t hp with hin | hp2
                    · simp at hin
                    · exact hp2
                  cases mk with
                  | true =>
                      rw [rvs_ok_mk env cfg fs paths ow p0 rest rt fs1 par tr
                        hF htp hz htm hl] at h
                      rw [Prod.mk.injEq] at h
                      obtain ⟨-, h2⟩ := h
                      have hr : r = ⟨par, tr,
                          (parent_geotiffs_from_children env cfg.minZ fs1 par true).2,
                          none⟩ := (Except.ok.inj h2).symm
                      subst hr
                      exact ⟨rfl, hn List.nodup_nil, hmem⟩
                  | false =>
                      rw [rvs_ok_nomk env cfg fs paths ow p0 rest rt fs1 par tr
                        hF htp hz htm hl] at h
                      rw [Prod.mk.injEq] at h
                      obtain ⟨-, h2⟩ := h
                      have hr : r = ⟨par, tr, [], none⟩ := (Except.ok.inj h2).symm
                      subst hr
                      exact ⟨rfl, hn List.nodup_nil, hmem⟩
            · rw [rvs_tmsMismatch env cfg fs paths mk ow p0 rest rt hF htp hz htm] at h
              simp at h
          · rw [rvs_zMismatch env cfg fs paths mk ow p0 rest rt hF htp hz] at h
            simp at h

/-- Witness for C5 at a concrete input: the run on v1 succeeds, its Python
return value is None, the parent set has no duplicates and contains the
parent of the rasterized tile. -/
theorem c5_witness :
    (⟨[p20], [("v1", some t30)], [], none⟩ : RVOut).pyReturn = none ∧
    (⟨[p20], [("v1", some t30)], [], none⟩ : RVOut).parents.Nodup ∧
    parentTile t30 ∈ (⟨[p20], [("v1", some t30)], [], none⟩ : RVOut).parents := by
  have heq : rasterize_vectors cEnvBase cCfg fs0 ["v1"] false true =
      (⟨["geo-0-0-3"], [], 2, [⟨some t30, false⟩]⟩,
        Except.ok ⟨[p20], [("v1", some t30)], [], none⟩) := by decide
  have h := c5_parent_set cEnvBase cCfg fs0 ["v1"] false true _ _ heq
  exact ⟨h.1, h.2.1, h.2.2 "v1" t30 (by decide)⟩

/-- Counterexample for C5 as stated: on a run in which a tile was successfully
rasterized (see the trace) the Python return value of rasterize_vectors is
None — the function does not return the set of implied parent coordinates. -/
theorem c5_counterexample :
    rasterize_vectors cEnvBase cCfg fs0 ["v1"] false true =
      (⟨["geo-0-0-3"], [], 2, [⟨some t30, false⟩]⟩,
        Except.ok ⟨[p20], [("v1", some t30)], [], none⟩) ∧
    (⟨[p20], [("v1", some t30)], [], none⟩ : RVOut).pyReturn = none ∧
    (⟨[p20], [("v1", some t30)], [], none⟩ : RVOut).parents ≠ [] := by
  decide

/-- C6: Fatal configuration check.  When the first remaining input path
decodes to a tile whose zoom differs from the configured maximum zoom, or
whose tiling scheme differs from the configured tms id, rasterize_vectors
raises immediately with the state unchanged, so no input file is rasterized;
when the first path matches, no such configuration error is raised for the
call. -/
theorem c6_config_check (env : Env) (cfg : WorkflowConfig) (fs : FS)
    (paths : List FilePath2) (mk ow : Bool) (p0 : FilePath2)
    (rest : List FilePath2) (rt : Tile)
    (hF : paths.filter (fun p => env.vectorFiles.contains p) = p0 :: rest)
    (htp : env.tileOfPath p0 = some rt) :
    (rt.z ≠ cfg.maxZ →
      rasterize_vectors env cfg fs paths mk ow = (fs, Except.error Err.zMismatch)) ∧
    (rt.z = cfg.maxZ → rt.tms ≠ cfg.tmsId →
      rasterize_vectors env cfg fs paths mk ow = (fs, Except.error Err.tmsMismatch)) ∧
    (rt.z = cfg.maxZ → rt.tms = cfg.tmsId →
      (rasterize_vectors env cfg fs paths mk ow).2 ≠ Except.error Err.zMismatch ∧
      (rasterize_vectors env cfg fs paths mk ow).2 ≠ Except.error Err.tmsMismatch) := by
  refine ⟨?_, ?_, ?_⟩
  · intro hz
    exact rvs_zMismatch env cfg fs paths mk ow p0 rest rt hF htp hz
  · intro hz htm
    exact rvs_tmsMismatch env cfg fs paths mk ow p0 rest rt hF htp hz htm
  · intro hz htm
    rcases hl : rasterize_loop env ow fs [] [] (p0 :: rest) with ⟨fs1, r1⟩
    cases r1 with
    | error e =>
        have he : e = Err.unboundLocalTile := by
          refine rloop_err env ow (p0 :: rest) fs [] [] e ?_
          rw [hl]
        subst he
        rw [rvs_loopError env cfg fs paths mk ow p0 rest rt fs1
          Err.unboundLocalTile hF htp hz htm hl]
        exact ⟨by simp, by simp⟩
    | ok pr =>
        rcases pr with ⟨par, tr⟩
        cases mk with
        | true =>
            rw [rvs_ok_mk env cfg fs paths ow p0 rest rt fs1 par tr hF htp hz htm hl]
            exact ⟨by simp, by simp⟩
        | false =>
            rw [rvs_ok_nomk env cfg fs paths ow p0 rest rt fs1 par tr hF htp hz htm hl]
            exact ⟨by simp, by simp⟩

/-- Witness for C6 at a concrete input: staged tiles at zoom 3 against a
configured maximum zoom of 4 make the call raise the zoom-mismatch error with
the state untouched. -/
theorem c6_witness :
    rasterize_vectors cEnvBase cCfgZ4 fs0 ["v1"] true true =
      (fs0, Except.error Err.zMismatch) := by
  exact (c6_config_check cEnvBase cCfgZ4 fs0 ["v1"] true true "v1" [] t30
    (by decide) rfl).1 (by decide)

theorem webtile_loop_fail (env : Env) (gpath : FilePath2) (tile : Tile) :
    ∀ (stats : List String) (i k : Nat) (fs : FS),
      (∀ j, j < i → env.encodeFail gpath (k + j) = false) →
      env.encodeFail gpath (k + i) = true →
      i < stats.length →
      webtile_loop env gpath tile true fs k stats =
        ({ fs with
            webtiles :=
              (stats.take i).foldl
                (fun l s => addFile l (env.webPathOf tile s)) fs.webtiles },
          true) := by
  intro stats
  induction stats with
  | nil =>
      intro i k fs h1 h2 hi
      simp at hi
  | cons s rest ih =>
      intro i k fs h1 h2 hi
      cases i with
      | zero =>
          have h2b : env.encodeFail gpath k = true := by simpa using h2
          simp only [webtile_loop]
          rw [if_neg (by simp), if_pos h2b]
          rfl
      | succ i2 =>
          have h0 : env.encodeFail gpath k = false := by
            have := h1 0 (Nat.succ_pos i2)
            simpa using this
          simp only [webtile_loop]
          rw [if_neg (by simp), if_neg (by simp [h0])]
          have hrec := ih i2 (k + 1)
            { fs with webtiles := addFile fs.webtiles (env.webPathOf tile s) }
            (fun j hj => by
              have := h1 (j + 1) (Nat.succ_lt_succ hj)
              rwa [show k + (j + 1) = k + 1 + j by omega] at this)
            (by
              have h2c := h2
              rwa [show k + (i2 + 1) = k + 1 + i2 by omega] at h2c)
            (by simpa using hi)
          rw [hrec]
          rw [List.take_succ_cons, List.foldl_cons]

/-- C2 (amended): web-tile failure isolation is per raster file, not per
statistic band.  When band i of a geotiff is the first band whose encoding
raises, the bands before i are encoded and saved, the exception aborts the
loop so the bands after i are never encoded, one error event row is appended
for the whole file and webtile_from_geotiff returns None; the enclosing loop
over geotiff paths then continues with the remaining files. -/
theorem c2_per_file_isolation (env : Env) (cfg : WorkflowConfig) (fs : FS)
    (gpath : FilePath2) (gs : List FilePath2) (tile : Tile) (i : Nat)
    (hread : env.rasterReadFail gpath = false)
    (hdec : env.tileOfPath gpath = some tile)
    (hok : ∀ j, j < i → env.encodeFail gpath j = false)
    (hfail : env.encodeFail gpath i = true)
    (hi : i < cfg.statNames.length) :
    webtile_from_geotiff env cfg fs gpath true =
      ({ fs with
          webtiles := (cfg.statNames.take i).foldl
            (fun l s => addFile l (env.webPathOf tile s)) fs.webtiles,
          events := fs.events ++ [⟨some tile, true⟩] }, Except.ok none) ∧
    webtiles_loop env cfg true fs (gpath :: gs) =
      webtiles_loop env cfg true
        { fs with
          webtiles := (cfg.statNames.take i).foldl
            (fun l s => addFile l (env.webPathOf tile s)) fs.webtiles,
          events := fs.events ++ [⟨some tile, true⟩] } gs := by
  have hloop := webtile_loop_fail env gpath tile cfg.statNames i 0 fs
    (fun j hj => by simpa using hok j hj) (by simpa using hfail) hi
  have hmain : webtile_from_geotiff env cfg fs gpath true =
      ({ fs with
          webtiles := (cfg.statNames.take i).foldl
            (fun l s => addFile l (env.webPathOf tile s)) fs.webtiles,
          events := fs.events ++ [⟨some tile, true⟩] }, Except.ok none) := by
    unfold webtile_from_geotiff
    rw [if_neg (by simp [hread]), hdec]
    simp only
    rw [hloop]
  refine ⟨hmain, ?_⟩
  simp only [webtiles_loop]
  rw [hmain]

/-- Witness for C2 at a concrete input: on geotiff g1 whose band 0 encoding
raises, the file yields one error event, no web tiles, and returns None. -/
theorem c2_witness :
    webtile_from_geotiff cEnvWeb cCfg fs0 "g1" true =
      (⟨[], [], 0, [⟨some t30, true⟩]⟩, Except.ok none) := by
  exact (c2_per_file_isolation cEnvWeb cCfg fs0 "g1" [] t30 0 rfl rfl
    (fun j hj => absurd hj (Nat.not_lt_zero j)) rfl (by decide)).1

/-- Counterexample for C2 as stated: band 0 of geotiff g1 fails to encode
while band 1 (statistic B) would succeed, yet the web tile of band 1 is never
produced and the single error event covers the whole file — the siblings of a
failing band are not encoded. -/
theorem c2_counterexample :
    (webtile_from_geotiff cEnvWeb cCfg fs0 "g1" true).2 = Except.ok none ∧
    cEnvWeb.encodeFail "g1" 1 = false ∧
    ((webtile_from_geotiff cEnvWeb cCfg fs0 "g1" true).1.webtiles.contains
      (cEnvWeb.webPathOf t30 "B")) = false ∧
    (webtile_from_geotiff cEnvWeb cCfg fs0 "g1" true).1.events =
      fs0.events ++ [⟨some t30, true⟩] := by
  decide

/-- Witness for C7 at concrete inputs: a skip no-op on an existing output, and
a second identical run that appends zero new summary rows. -/
theorem c7_witness :
    rasterize_vector cEnvBase fsG "v1" false = (fsG, Except.ok none) ∧
    (rasterize_vectors cEnvBase cCfg
        (rasterize_vectors cEnvBase cCfg fs0 ["v1"] false false).1
        ["v1"] false false).1.summaryCount =
      (rasterize_vectors cEnvBase cCfg fs0 ["v1"] false false).1.summaryCount := by
  exact ⟨c7_idempotence.1 cEnvBase fsG "v1" t30 rfl rfl,
    c7_idempotence.2 cEnvBase cCfg fs0 ["v1"] false⟩

/-- C8 (amended): min_missing and max_missing agree with get_min and get_max
when fallback is disallowed: with sub_general false, the missing check is true
exactly when the getter returns None.  (With sub_general true the agreement
fails: get_min additionally substitutes the global bound slot-wise when the
per-zoom range exists with an unset slot, which min_missing never does — see
the counterexample.) -/
theorem c8_missing_vs_get (cfg : StatsConfig) (stat : String) (k : Option ZKey) :
    (min_missing cfg stat k false = Except.ok true ↔
      get_min cfg stat k false = Except.ok none) ∧
    (max_missing cfg stat k false = Except.ok true ↔
      get_max cfg stat k false = Except.ok none) := by
  constructor
  · cases hg : get_value_range cfg stat k false with
    | error e => simp [min_missing, get_min, hg, Bind.bind, Except.bind]
    | ok vr =>
        cases vr with
        | none => simp [min_missing, get_min, hg, Bind.bind, Except.bind]
        | some r =>
            rcases r with ⟨mn, mx⟩
            cases mn with
            | none => simp [min_missing, get_min, hg, Bind.bind, Except.bind]
            | some v => simp [min_missing, get_min, hg, Bind.bind, Except.bind]
  · cases hg : get_value_range cfg stat k false with
    | error e => simp [max_missing, get_max, hg, Bind.bind, Except.bind]
    | ok vr =>
        cases vr with
        | none => simp [max_missing, get_max, hg, Bind.bind, Except.bind]
        | some r =>
            rcases r with ⟨mn, mx⟩
            cases mx with
            | none => simp [max_missing, get_max, hg, Bind.bind, Except.bind]
            | some v => simp [max_missing, get_max, hg, Bind.bind, Except.bind]

/-- Counterexample for C8 as stated: for statistic count with global range
(3, 8) and a per-zoom range at zoom 10 whose min slot is unset, min_missing
with fallback reports the min missing, yet get_min with the same fallback
returns 3 rather than None — the two functions disagree under the fallback
policy. -/
theorem c8_counterexample :
    min_missing c8cfg "count" (some (ZKey.s "10")) true = Except.ok true ∧
    get_min c8cfg "count" (some (ZKey.s "10")) true = Except.ok (some 3) ∧
    get_min c8cfg "count" (some (ZKey.s "10")) true ≠ Except.ok none := by
  decide

/-- C9 (amended): every row appended to the rasterization-events ledger has
exactly the columns id, type, start_time, total_time, end_time, error, path,
raster_summary, tile, z — the nine claimed columns plus raster_summary. -/
theorem c9_event_schema (idv typev startv totalv endv errv : PyVal)
    (rp ip : Option PyVal) (ti : Option (PyVal × PyVal)) :
    (end_tracking_event idv typev startv totalv endv errv rp ip ti).map Prod.fst =
      ["id", "type", "start_time", "total_time", "end_time", "error", "path",
        "raster_summary", "tile", "z"] := by
  rcases rp with _ | p1 <;> rcases ip with _ | p2 <;> rcases ti with _ | ⟨t1, t2⟩ <;> rfl

/-- Counterexample for C9 as stated: the columns of an event row are not the
nine claimed ones — the dict built by end-tracking also carries the
raster_summary key. -/
theorem c9_counterexample :
    (end_tracking_event PyVal.none PyVal.none PyVal.none PyVal.none PyVal.none
        PyVal.none none none none).map Prod.fst ≠
      ["id", "type", "start_time", "total_time", "end_time", "error", "path",
        "tile", "z"] := by
  decide

/-- C1: evaluation of the code at the failing input.  Merging the observed
ranges (integer zoom key 10, min 2, max 9, as produced by get_z_ranges) into a
statistic with no stored bounds stores the observed values under the integer
key 10, while every getter converts the zoom to the string key 10 before the
lookup: after the merge, get_min and min_missing still report the bound
missing under the fallback-aware check, for the integer and the string zoom
alike.  The non-destructive half of the claim does hold: a stored general
minimum of 5 survives the merge of an observed minimum of 2. -/
theorem c1_update_ranges_bug :
    update_ranges c1cfg c1obs = Except.ok c1after ∧
    min_missing c1after "count" (some (ZKey.i 10)) true = Except.ok true ∧
    get_min c1after "count" (some (ZKey.i 10)) true = Except.ok none ∧
    get_max c1after "count" (some (ZKey.i 10)) true = Except.ok none ∧
    get_min c1after "count" (some (ZKey.s "10")) true = Except.ok none ∧
    update_ranges c1cfgA c1obs = Except.ok c1afterA ∧
    get_min c1afterA "count" none false = Except.ok (some 5) := by
  decide
